import Mathlib

/-!
Verification of the probe engine of the `pistol-rs` repository against its
natural-language specification.  The Rust sources are shallowly embedded:
strings are lists of characters, machine integers are `Nat` with explicit
bounds or `% 2^w` where overflow matters, fallible code returns `Except`,
and panics are modelled as a dedicated error value.  External crates
(`regex`, the OS interface-table walk) enter only as explicitly named
oracle parameters or, where the repository file is missing, as definitions
modelled from the specification text.
-/

namespace Pistol

/-- Rust `&str`, embedded as a list of characters. -/
abbrev Str := List Char

/-- Rust's `str::contains(pat)`: substring containment test. -/
def hasSub (hay pat : Str) : Bool :=
  if pat.isPrefixOf hay then true
  else
    match hay with
    | [] => false
    | _ :: t => hasSub t pat

/-- Rust's `str::starts_with(pat)`. -/
def startsW (hay pat : Str) : Bool :=
  pat.isPrefixOf hay

/-- Rust's `str::split(c)` for a one-character pattern: keeps empty pieces,
    always returns at least one piece. -/
def splitChar (c : Char) : Str → List Str
  | [] => [[]]
  | x :: t =>
    if x = c then [] :: splitChar c t
    else
      match splitChar c t with
      | h :: r => (x :: h) :: r
      | [] => [[x]]

/-- Rust's `str::trim()`: strip whitespace from both ends. -/
def trimStr (s : Str) : Str :=
  ((s.dropWhile Char.isWhitespace).reverse.dropWhile Char.isWhitespace).reverse

/-- Rust's `[..].join(sep)` on string slices. -/
def joinSep (sep : Str) (l : List Str) : Str :=
  List.intercalate sep l

/-- Rust's `str::replace(pat, rep)`: replace every non-overlapping occurrence,
    scanning left to right. -/
def replaceSub (pat rep : Str) : Str → Str
  | [] => []
  | c :: t =>
    if h : pat ≠ [] ∧ pat.isPrefixOf (c :: t) then
      rep ++ replaceSub pat rep ((c :: t).drop pat.length)
    else
      c :: replaceSub pat rep t
termination_by s => s.length
decreasing_by
  · simp only [List.length_drop, List.length_cons]
    have : 0 < pat.length := List.length_pos.mpr h.1
    omega
  · simp

/-- Errors of the embedded Rust code.  `panicked` stands for a Rust panic
    (out-of-bounds indexing or the `panic!` in the probe-protocol match),
    `intErr` for a failed integer `parse`, `regexErr` for a failed
    `Regex::new`. -/
inductive PErr where
  | panicked
  | intErr
  | regexErr
deriving DecidableEq, Repr

/-- Rust `v[i]` on a `Vec`: the value, or a panic when out of bounds. -/
def idx (l : List Str) (i : Nat) : Except PErr Str :=
  match l.get? i with
  | some x => .ok x
  | none => .error .panicked

/-- Decimal digit accumulator used by the integer `parse` models. -/
def parseDigitsGo : List Char → Nat → Option Nat
  | [], acc => some acc
  | c :: t, acc =>
    if c.isDigit then parseDigitsGo t (acc * 10 + (c.toNat - 48))
    else none

/-- Rust `str::parse::<uN>()` for an unsigned width bounded by `lim`:
    an optional leading `+`, then at least one decimal digit, value `< lim`. -/
def parseUInt (lim : Nat) (s : Str) : Except PErr Nat :=
  let s2 := match s with
    | c :: t => if c = '+' then t else s
    | [] => s
  match s2 with
  | [] => .error .intErr
  | _ =>
    match parseDigitsGo s2 0 with
    | some v => if v < lim then .ok v else .error .intErr
    | none => .error .intErr

/-- Rust `str::parse::<u16>()`. -/
def parseU16 (s : Str) : Except PErr Nat := parseUInt 65536 s

/-- Rust `str::parse::<u64>()`. -/
def parseU64 (s : Str) : Except PErr Nat := parseUInt (2 ^ 64) s

/-- Rust `for p in start..=end { push(p) }`: the inclusive range as a list
    (empty when `a > b`). -/
def rangeIncl (a b : Nat) : List Nat :=
  (List.range (b + 1 - a)).map (a + ·)

/- String literals used by the db parser, fixed once. -/

def hashS : Str := "#".toList
def excludeS : Str := "Exclude".toList
def probeS : Str := "Probe".toList
def matchS : Str := "match".toList
def softmatchS : Str := "softmatch".toList
def portsS : Str := "ports".toList
def sslportsS : Str := "sslports".toList
def totalwaitmsS : Str := "totalwaitms".toList
def tcpwrappedmsS : Str := "tcpwrappedms".toList
def rarityS : Str := "rarity".toList
def fallbackS : Str := "fallback".toList
def tcpS : Str := "TCP".toList
def udpS : Str := "UDP".toList
def noPayloadS : Str := "no-payload".toList
def mBarS : Str := "m|".toList
def mEqS : Str := "m=".toList
def barIS : Str := "|i".toList
def barSS : Str := "|s".toList
def slashIS : Str := "/i".toList
def slashSS : Str := "/s".toList
def backslashZeroS : Str := "\\0".toList
def backslashXZeroS : Str := "\\x\x7b0\x7d".toList
def spaceS : Str := " ".toList
def barS : Str := "|".toList
def tS : Str := "T".toList
def uS : Str := "U".toList

/- ===== src/service/dbparser.rs : data model ===== -/

/-- `enum ProbesProtocol` of src/service/dbparser.rs. -/
inductive ProbesProtocol where
  | tcp
  | udp
deriving DecidableEq, Repr

/-- `struct Match` of src/service/dbparser.rs.  The compiled regex
    (`re: Regex`, from the external `regex` crate) is embedded as the
    Boolean matching function it denotes. -/
structure Match where
  service : Str
  pattern : Str
  versioninfo : Str
  re : Str → Bool

/-- `struct Probe` of src/service/dbparser.rs. -/
structure Probe where
  protocol : ProbesProtocol
  probename : Str
  probestring : Str
  no_payload : Bool

/-- `struct ServiceProbes` of src/service/dbparser.rs. -/
structure ServiceProbes where
  probe : Probe
  matchs : List Match
  softmatchs : List Match
  ports : Option (List Nat)
  sslports : Option (List Nat)
  totalwaitms : Option Nat
  tcpwrappedms : Option Nat
  rarity : Option Nat
  fallback : Option (List Str)

/-- The accumulation loop of `ServiceProbes::check`: walk the `matchs`
    vector in order and push every entry whose regex matches. -/
def checkGo (recv : Str) : List Match → List Match
  | [] => []
  | m :: rest =>
    if m.re recv then m :: checkGo recv rest else checkGo recv rest

/-- `ServiceProbes::check` of src/service/dbparser.rs: collect all hard
    `matchs` whose regex matches the response, and return them in `Ok`.
    The `softmatchs` field is never read. -/
def ServiceProbes.check (sp : ServiceProbes) (recv_str : Str) :
    Except PErr (List Match) :=
  .ok (checkGo recv_str sp.matchs)

/-- `struct ExcludePorts` of src/service/dbparser.rs. -/
structure ExcludePorts where
  ports : List Nat
  tcp_ports : List Nat
  udp_ports : List Nat
deriving DecidableEq, Repr

/- ===== src/service/dbparser.rs : nsp_exclued_parser ===== -/

/-- The body of the `for ex in &exclued_split` loop of `nsp_exclued_parser`.
    `full` is the whole `exclued_split` vector, which the source's UDP range
    branch reads (`exclued_split[1]`) in place of the current token's split
    (`ex_split[1]`). -/
def exclItems (full : List Str) :
    List Str → List Nat × List Nat × List Nat →
    Except PErr (List Nat × List Nat × List Nat)
  | [], acc => .ok acc
  | ex :: rest, (ports, tcp_ports, udp_ports) => do
    if hasSub ex (":".toList) then
      let ex_split := splitChar ':' ex
      let head ← idx ex_split 0
      if head = tS then
        let item ← idx ex_split 1
        if hasSub item ("-".toList) then
          let ex_split_split := splitChar '-' item
          let start ← parseU16 (← idx ex_split_split 0)
          let stop ← parseU16 (← idx ex_split_split 1)
          exclItems full rest (ports, tcp_ports ++ rangeIncl start stop, udp_ports)
        else
          let p ← parseU16 item
          exclItems full rest (ports, tcp_ports ++ [p], udp_ports)
      else if head = uS then
        let item ← idx ex_split 1
        if hasSub item ("-".toList) then
          let ex_split_split := splitChar '-' (← idx full 1)
          let start ← parseU16 (← idx ex_split_split 0)
          let stop ← parseU16 (← idx ex_split_split 1)
          exclItems full rest (ports, tcp_ports, udp_ports ++ rangeIncl start stop)
        else
          let p ← parseU16 item
          exclItems full rest (ports, tcp_ports, udp_ports ++ [p])
      else
        exclItems full rest (ports, tcp_ports, udp_ports)
    else
      let p ← parseU16 ex
      exclItems full rest (ports ++ [p], tcp_ports, udp_ports)

/-- Processing of the first `Exclude` line found by `nsp_exclued_parser`. -/
def exclProcess (line : Str) : Except PErr ExcludePorts := do
  let line_split := splitChar ' ' line
  let exclued := joinSep spaceS (line_split.drop 1)
  let exclued_split := (splitChar ',' exclued).map trimStr
  let (ports, tcp_ports, udp_ports) ← exclItems exclued_split exclued_split ([], [], [])
  .ok ⟨ports, tcp_ports, udp_ports⟩

/-- `nsp_exclued_parser` of src/service/dbparser.rs: scan the lines for the
    first one starting with `Exclude`, process it, and stop (`break`).
    With no `Exclude` line all three port lists are empty. -/
def nsp_exclued_parse : List Str → Except PErr ExcludePorts
  | [] => .ok ⟨[], [], []⟩
  | line :: rest =>
    if startsW line excludeS then exclProcess line
    else nsp_exclued_parse rest

/- ===== src/service/dbparser.rs : nsp_parser ===== -/

/-- The oracle for `Regex::new` of the external `regex` crate: compilation
    either fails or yields the matching function the compiled regex denotes. -/
abbrev RegexNew := Str → Except PErr (Str → Bool)

/-- The mutable locals of `nsp_parser`, threaded through the line loop. -/
structure NspState where
  ret : List ServiceProbes
  probe_global : Option Probe
  matchs_global : List Match
  softmatchs_global : List Match
  ports_global : Option (List Nat)
  sslports_global : Option (List Nat)
  totalwaitms_global : Option Nat
  tcpwrappedms_global : Option Nat
  rarity_global : Option Nat
  fallback_gloabl : Option (List Str)

/-- The initial values of the locals of `nsp_parser`. -/
def nspInit : NspState :=
  ⟨[], none, [], [], none, none, none, none, none, none⟩

/-- The flush that `nsp_parser` performs on meeting a new `Probe` line and
    at end of input: when a probe is pending, push the assembled
    `ServiceProbes` and reset the per-probe fields. -/
def nspFlush (st : NspState) : NspState :=
  match st.probe_global with
  | some p =>
    { ret := st.ret ++ [⟨p, st.matchs_global, st.softmatchs_global,
        st.ports_global, st.sslports_global, st.totalwaitms_global,
        st.tcpwrappedms_global, st.rarity_global, st.fallback_gloabl⟩],
      probe_global := none,
      matchs_global := [], softmatchs_global := [],
      ports_global := none, sslports_global := none,
      totalwaitms_global := none, tcpwrappedms_global := none,
      rarity_global := none, fallback_gloabl := none }
  | none => st

/-- The `match`/`softmatch` line body shared verbatim by the two branches of
    `nsp_parser`: extract service, delimiter-split pattern, flag suffixes,
    the `\0` rewrite, versioninfo, and compile the regex. -/
def nspMatchLine (regexNew : RegexNew) (line : Str) : Except PErr Match := do
  let line_split := splitChar ' ' line
  let service ← idx line_split 1
  let matchlast := joinSep spaceS (line_split.drop 2)
  let matchlast_split :=
    if startsW matchlast mBarS then splitChar '|' matchlast
    else if startsW matchlast mEqS then splitChar '=' matchlast
    else splitChar '%' matchlast
  let pattern0 ← idx matchlast_split 1
  let pattern1 :=
    if hasSub matchlast barIS then pattern0 ++ slashIS
    else if hasSub matchlast barSS then pattern0 ++ slashSS
    else pattern0
  let pattern := replaceSub backslashZeroS backslashXZeroS pattern1
  let versioninfo := joinSep barS (matchlast_split.drop 2)
  let re ← regexNew pattern
  .ok ⟨service, pattern, versioninfo, re⟩

/-- `ports_parser` of src/service/dbparser.rs: comma-separated items, each a
    number or an inclusive `a-b` range. -/
def ports_parse_items : List Str → List Nat → Except PErr (List Nat)
  | [], acc => .ok acc
  | ps :: rest, acc => do
    if hasSub ps ("-".toList) then
      let ps_split := splitChar '-' ps
      let ps_start ← parseU16 (← idx ps_split 0)
      let ps_end ← parseU16 (← idx ps_split 1)
      ports_parse_items rest (acc ++ rangeIncl ps_start ps_end)
    else
      let p ← parseU16 ps
      ports_parse_items rest (acc ++ [p])

/-- `ports_parser` of src/service/dbparser.rs (entry point). -/
def ports_parse (ports : Str) : Except PErr (List Nat) :=
  ports_parse_items ((splitChar ',' ports).map trimStr) []

/-- One iteration of the `for line in lines` loop of `nsp_parser`. -/
def nspStep (regexNew : RegexNew) (st : NspState) (line : Str) :
    Except PErr NspState := do
  if hasSub line hashS then .ok st
  else if hasSub line excludeS then .ok st
  else if startsW line probeS then
    let st := nspFlush st
    let line_split := splitChar ' ' line
    let proto_str ← idx line_split 1
    let protocol ←
      if proto_str = tcpS then .ok ProbesProtocol.tcp
      else if proto_str = udpS then .ok ProbesProtocol.udp
      else .error .panicked
    let probename ← idx line_split 2
    let probelast := joinSep spaceS (line_split.drop 3)
    let probelast_split := (splitChar '|' probelast).map trimStr
    let probestring ← idx probelast_split 1
    let no_payload := hasSub probelast noPayloadS
    .ok { st with probe_global := some ⟨protocol, probename, probestring, no_payload⟩ }
  else if startsW line matchS then
    let m ← nspMatchLine regexNew line
    .ok { st with matchs_global := st.matchs_global ++ [m] }
  else if startsW line softmatchS then
    let m ← nspMatchLine regexNew line
    .ok { st with softmatchs_global := st.softmatchs_global ++ [m] }
  else if startsW line portsS then
    let line_split := splitChar ' ' line
    let ports_line := joinSep spaceS (line_split.drop 1)
    let ports ← ports_parse ports_line
    .ok { st with ports_global := some ports }
  else if startsW line sslportsS then
    let line_split := splitChar ' ' line
    let sslports_line := joinSep spaceS (line_split.drop 1)
    let sslports ← ports_parse sslports_line
    .ok { st with sslports_global := some sslports }
  else if startsW line totalwaitmsS then
    let line_split := splitChar ' ' line
    let totalwaitms ← parseU64 (← idx line_split 1)
    .ok { st with totalwaitms_global := some totalwaitms }
  else if startsW line tcpwrappedmsS then
    let line_split := splitChar ' ' line
    let tcpwrappedms ← parseU64 (← idx line_split 1)
    .ok { st with tcpwrappedms_global := some tcpwrappedms }
  else if startsW line rarityS then
    let line_split := splitChar ' ' line
    let rarity ← parseU64 (← idx line_split 1)
    .ok { st with rarity_global := some rarity }
  else if startsW line fallbackS then
    let line_split := splitChar ' ' line
    .ok { st with fallback_gloabl := some (line_split.drop 1) }
  else .ok st

/-- The line loop of `nsp_parser` followed by the terminal flush. -/
def nspGo (regexNew : RegexNew) : List Str → NspState →
    Except PErr (List ServiceProbes)
  | [], st => .ok (nspFlush st).ret
  | line :: rest, st => do
    nspGo regexNew rest (← nspStep regexNew st line)

/-- `nsp_parser` of src/service/dbparser.rs. -/
def nsp_parse (regexNew : RegexNew) (lines : List Str) :
    Except PErr (List ServiceProbes) :=
  nspGo regexNew lines nspInit

/- ===== src/lib.rs : address classification and Host construction ===== -/

/-- The four octets of a `std::net::Ipv4Addr`. -/
structure Ipv4A where
  o0 : Nat
  o1 : Nat
  o2 : Nat
  o3 : Nat
deriving DecidableEq, Repr

/-- `Ipv4Addr::is_global_x` of src/lib.rs (trait `Ipv4CheckMethods`). -/
def Ipv4A.is_global_x (a : Ipv4A) : Bool :=
  let is_private :=
    if a.o0 = 10 then true
    else if a.o0 = 192 && a.o1 = 168 then true
    else if a.o0 = 172 && 16 ≤ a.o1 && a.o1 ≤ 31 then true
    else false
  !is_private

/-- The sixteen octets of a `std::net::Ipv6Addr`; only the first two are read
    by `is_global_x`, embedded as the leading octets plus the rest. -/
structure Ipv6A where
  o0 : Nat
  o1 : Nat
  rest : List Nat
deriving DecidableEq, Repr

/-- `Ipv6Addr::is_global_x` of src/lib.rs (trait `Ipv6CheckMethods`):
    link-local means `octets[0] == 0b11111110 && octets[1] >> 6 == 0b10`. -/
def Ipv6A.is_global_x (a : Ipv6A) : Bool :=
  let is_local :=
    if a.o0 = 254 && a.o1 / 64 = 2 then true else false
  !is_local

/-- `struct Host` of src/lib.rs. -/
structure Host where
  addr : Ipv4A
  ports : List Nat
deriving DecidableEq, Repr

/-- The errors of src/errors.rs that `Host::new` can surface.  That file is
    not part of the provided sources; the single variant used here is named
    by the specification's error-kind list. -/
inductive PistolErr where
  | illegalTarget (addr : Ipv4A)
deriving DecidableEq, Repr

/-- `Host::new` of src/lib.rs, parameterised by the interface resolver.
    `find_source` stands for `utils::find_source_ipv4`.  Modelled from the
    spec: `find_source_ipv4` lives in src/utils.rs, which is not among the
    provided sources; per spec section 4.1 it selects an up, non-loopback
    interface toward the destination and returns none if no such interface
    exists. -/
def Host.new {α : Type} (find_source : Ipv4A → Option α)
    (addr : Ipv4A) (ports : Option (List Nat)) : Except PistolErr Host :=
  if addr.is_global_x = false then
    match find_source addr with
    | some _ =>
      match ports with
      | some p => .ok ⟨addr, p⟩
      | none => .ok ⟨addr, []⟩
    | none => .error (.illegalTarget addr)
  else
    match ports with
    | some p => .ok ⟨addr, p⟩
    | none => .ok ⟨addr, []⟩

/- ===== pnet checksum arithmetic (util::checksum / util::ipv4_checksum) ===== -/

/-- The folding loop of pnet's `finalize_checksum`:
    `while sum >> 16 != 0 { sum = (sum >> 16) + (sum & 0xFFFF) }`. -/
def fold16 (s : Nat) : Nat :=
  if s < 65536 then s
  else fold16 (s / 65536 + s % 65536)
termination_by s
decreasing_by omega

/-- pnet's `finalize_checksum`: fold the carries, then complement as `u16`. -/
def finalizeChecksum (s : Nat) : Nat :=
  65535 - fold16 s

/-- pnet's `sum_be_words` without a skip word: sum the big-endian 16-bit
    words of a byte slice (an odd trailing byte counts as a high byte). -/
def sumBeWords : List Nat → Nat
  | b0 :: b1 :: rest => b0 * 256 + b1 + sumBeWords rest
  | [b] => b * 256
  | [] => 0

/-- pnet's `sum_be_words(data, skipword)`: as `sumBeWords`, but the 16-bit
    word at index `skip` is left out (this is where the checksum field
    lives while it is being computed). -/
def sumBeWordsFrom (i skip : Nat) : List Nat → Nat
  | b0 :: b1 :: rest =>
    (if i = skip then 0 else b0 * 256 + b1) + sumBeWordsFrom (i + 1) skip rest
  | [b] => if i = skip then 0 else b * 256
  | [] => 0

/-- pnet's `sum_be_words(data, skipword)` entry point. -/
def sumBeWordsSkip (data : List Nat) (skip : Nat) : Nat :=
  sumBeWordsFrom 0 skip data

/-- pnet's `ipv4::checksum`: one's-complement sum of the header words,
    skipping the checksum word (index 5), folded and complemented. -/
def pnetIpv4Checksum (hdr : List Nat) : Nat :=
  finalizeChecksum (sumBeWordsSkip hdr 5)

/-- An IPv4 header validates in the classic RFC 1071 sense when the folded
    one's-complement sum over the complete header (checksum field included)
    complements to zero. -/
def ipv4Validate (hdr : List Nat) : Nat :=
  finalizeChecksum (sumBeWords hdr)

/- ===== src/ping/icmp.rs : send_icmp_ping_packet, packet construction ===== -/

/-- The 20 IPv4 header bytes written by `send_icmp_ping_packet` for a given
    checksum field value: version 4 / IHL 5 (byte `0x45`), zero TOS, total
    length 44 (20 + 8 + 16), the random identification, the DontFragment
    flag (`0b010` in the top three bits of byte 6), zero fragment offset,
    TTL 64, protocol 1 (ICMP), then source and destination octets. -/
def icmpIpv4HdrBytes (s0 s1 s2 s3 d0 d1 d2 d3 id chk : Nat) : List Nat :=
  [69, 0, 0, 44, id / 256, id % 256, 64, 0, 64, 1, chk / 256, chk % 256,
   s0, s1, s2, s3, d0, d1, d2, d3]

/-- The finished IPv4 header of `send_icmp_ping_packet`: the checksum is
    computed over the header with a zero checksum field
    (`let c = ipv4::checksum(..); ip_header.set_checksum(c)`). -/
def sendIcmpIpv4Header (s0 s1 s2 s3 d0 d1 d2 d3 id : Nat) : List Nat :=
  let c := pnetIpv4Checksum (icmpIpv4HdrBytes s0 s1 s2 s3 d0 d1 d2 d3 id 0)
  icmpIpv4HdrBytes s0 s1 s2 s3 d0 d1 d2 d3 id c

/-- pnet's `Ipv4Packet::get_version`: top nibble of byte 0. -/
def ipv4GetVersion (h : List Nat) : Nat := h.getD 0 0 / 16

/-- pnet's `Ipv4Packet::get_header_length`: low nibble of byte 0. -/
def ipv4GetHeaderLength (h : List Nat) : Nat := h.getD 0 0 % 16

/-- pnet's `Ipv4Packet::get_flags`: top three bits of byte 6. -/
def ipv4GetFlags (h : List Nat) : Nat := h.getD 6 0 / 32

/-- pnet's `Ipv4Packet::get_ttl`: byte 8. -/
def ipv4GetTtl (h : List Nat) : Nat := h.getD 8 0

/-- pnet's `Ipv4Packet::get_identification`: big-endian bytes 4 and 5. -/
def ipv4GetIdentification (h : List Nat) : Nat :=
  h.getD 4 0 * 256 + h.getD 5 0

/-- pnet's `Ipv4Packet::get_checksum`: big-endian bytes 10 and 11. -/
def ipv4GetChecksum (h : List Nat) : Nat :=
  h.getD 10 0 * 256 + h.getD 11 0

/-- `n`-byte big-endian encoding of a value (Rust's `to_be_bytes`). -/
def beBytes : Nat → Nat → List Nat
  | 0, _ => []
  | n + 1, v => beBytes n (v / 256) ++ [v % 256]

/-- The ICMP echo request assembled by `send_icmp_ping_packet`, with the
    random draws and the sampled clock as parameters: type 8, code 0,
    sequence number 1, the random identifier, and a 16-byte payload holding
    `Utc::now().timestamp().to_be_bytes()` reversed (8 bytes) followed by
    `timestamp_subsec_millis().to_be_bytes()` reversed (4 bytes), the
    remaining 4 data bytes staying zero. -/
structure IcmpEcho where
  icmp_type : Nat
  icmp_code : Nat
  identifier : Nat
  sequence : Nat
  payload : List Nat
deriving DecidableEq, Repr

/-- The echo-request construction of `send_icmp_ping_packet` (lines 56-69 of
    src/ping/icmp.rs): `ident` is the `rng.gen()` draw, `sec` the sampled
    `timestamp()`, `ms` the sampled `timestamp_subsec_millis()`. -/
def sendIcmpEchoBuild (ident sec ms : Nat) : IcmpEcho :=
  let tv_sec := (beBytes 8 sec).reverse
  let tv_usec := (beBytes 4 ms).reverse
  let timestamp := tv_sec ++ tv_usec
  { icmp_type := 8, icmp_code := 0, identifier := ident, sequence := 1,
    payload := timestamp ++ [0, 0, 0, 0] }

/-- What `send_icmp_ping_packet` sees of a parsed response: the IPv4
    `next_level_protocol` and, when `IcmpPacket::new` succeeds on the
    payload, the ICMP type and code. -/
structure Ipv4RecvView where
  next_level_protocol : Nat
  icmp : Option (Nat × Nat)
deriving DecidableEq, Repr

/-- The `codes_1` vector of src/ping/icmp.rs: the destination-unreachable
    codes treated as proof the host is down. -/
def codes_1 : List Nat := [2, 1, 3, 9, 10, 13]

/-- The `codes_2` vector of src/ping/icmp.rs: the accepted echo-reply code. -/
def codes_2 : List Nat := [0]

/-- `enum PingStatus` of src/lib.rs (re-exported through src/ping). -/
inductive PingStatus where
  | up
  | down
deriving DecidableEq, Repr

/-- The response classification of `send_icmp_ping_packet` (lines 96-134 of
    src/ping/icmp.rs).  The outer `Option` is the presence of a response
    within the timeout; the inner `Option` is success of `Ipv4Packet::new`.
    Every path that does not return early ends at `Ok((PingStatus::Down,
    rtt))`.  Type 3 is `IcmpTypes::DestinationUnreachable`, type 0 is
    `IcmpTypes::EchoReply`, protocol 1 is `IpNextHeaderProtocols::Icmp`. -/
def icmpPingJudge (ret : Option (Option Ipv4RecvView)) : PingStatus :=
  match ret with
  | some (some pkt) =>
    if pkt.next_level_protocol = 1 then
      match pkt.icmp with
      | some tc =>
        if tc.1 = 3 && codes_1.contains tc.2 then .down
        else if tc.1 = 0 && codes_2.contains tc.2 then .up
        else .down
      | none => .down
    else .down
  | some none => .down
  | none => .down

/- ===== src/scan/tcp.rs : tcp_syn_scan packet construction ===== -/

/-- The 20 TCP header bytes written by `tcp_syn_scan` for a given checksum
    field value: source and destination ports, the random sequence and
    acknowledgement numbers, data offset 0 and the SYN flag
    (`TcpFlags::SYN = 0b10`, so bytes 12-13 are `0, 2`), window 2048,
    the checksum, and a zero urgent pointer. -/
def tcpSynPacketBytes (ps pd sq ak chk : Nat) : List Nat :=
  [ps / 256, ps % 256, pd / 256, pd % 256] ++
  beBytes 4 sq ++ beBytes 4 ak ++
  [0, 2, 8, 0, chk / 256, chk % 256, 0, 0]

/-- pnet's `tcp::ipv4_checksum(packet, src, dst)`: one's-complement sum of
    the pseudo-header (source and destination IPv4 words, protocol 6 for
    TCP, the segment length) and the segment words skipping the checksum
    word (index 8), folded and complemented. -/
def pnetTcpIpv4Checksum (pkt : List Nat) (s0 s1 s2 s3 d0 d1 d2 d3 : Nat) : Nat :=
  finalizeChecksum
    (s0 * 256 + s1 + (s2 * 256 + s3) + (d0 * 256 + d1) + (d2 * 256 + d3) +
     6 + pkt.length + sumBeWordsSkip pkt 8)

/-- The finished TCP SYN segment of `tcp_syn_scan` (lines 38-55 of
    src/scan/tcp.rs): built with a zero checksum field, then
    `set_checksum(ipv4_checksum(..))`. -/
def tcpSynScanPacket (ps pd sq ak s0 s1 s2 s3 d0 d1 d2 d3 : Nat) : List Nat :=
  let c := pnetTcpIpv4Checksum (tcpSynPacketBytes ps pd sq ak 0)
             s0 s1 s2 s3 d0 d1 d2 d3
  tcpSynPacketBytes ps pd sq ak c

/-- pnet's `TcpPacket::get_checksum`: big-endian bytes 16 and 17. -/
def tcpGetChecksum (pkt : List Nat) : Nat :=
  pkt.getD 16 0 * 256 + pkt.getD 17 0

/-- RFC 1071 validation of a TCP segment against a pseudo-header: folded
    one's-complement sum over pseudo-header plus the complete segment
    (checksum field included), complemented; a verifying parser accepts
    exactly when this is zero. -/
def tcpValidate (pkt : List Nat) (s0 s1 s2 s3 d0 d1 d2 d3 : Nat) : Nat :=
  finalizeChecksum
    (s0 * 256 + s1 + (s2 * 256 + s3) + (d0 * 256 + d1) + (d2 * 256 + d3) +
     6 + pkt.length + sumBeWords pkt)

/- ===== Derived definitions and concrete inputs used by the theorems ===== -/

/-- The 32-bit value of an IPv4 address from its octets. -/
def ipv4Value (o0 o1 o2 o3 : Nat) : Nat :=
  o0 * 16777216 + o1 * 65536 + o2 * 256 + o3

/-- Membership of a 32-bit value in 10.0.0.0/8: the top 8 bits are 10. -/
def inRange10Slash8 (v : Nat) : Prop := v / 16777216 = 10

/-- Membership in 172.16.0.0/12: the top 12 bits are `0xAC1 = 2753`. -/
def inRange172Slash12 (v : Nat) : Prop := v / 1048576 = 2753

/-- Membership in 192.168.0.0/16: the top 16 bits are `0xC0A8 = 49320`. -/
def inRange192Slash16 (v : Nat) : Prop := v / 65536 = 49320

/-- Membership of the leading 16 bits of an IPv6 address in fe80::/10:
    the top 10 bits are `0b1111111010 = 1018`. -/
def inRangeFe80Slash10 (p : Nat) : Prop := p / 64 = 1018

/-- The `Exclude` line of spec scenario S6. -/
def excludeLineS : Str := "Exclude T:9100,U:161-162,53".toList

/-- A probe value used by the concrete `check` scenarios. -/
def probeEx : Probe := ⟨.tcp, "NULL".toList, [], false⟩

/-- A first hard rule whose regex accepts every response. -/
def mEx1 : Match := ⟨"svc1".toList, [], [], fun _ => true⟩

/-- A second hard rule whose regex also accepts every response. -/
def mEx2 : Match := ⟨"svc2".toList, [], [], fun _ => true⟩

/-- A line that opens a `Probe` block for `nsp_parser`: it reaches the
    `starts_with("Probe")` branch, so it contains neither `#` nor
    `Exclude`. -/
def isProbeLine (l : Str) : Bool :=
  !hasSub l hashS && !hasSub l excludeS && startsW l probeS

/-- The number of `Probe` block openers among the input lines. -/
def probeLineCount (lines : List Str) : Nat :=
  (lines.filter isProbeLine).length

/-- 1 when a probe is pending in the parser state, else 0. -/
def pendingCount (st : NspState) : Nat :=
  if st.probe_global.isSome then 1 else 0

/-- The trivial regex-compilation oracle: always succeeds, the compiled
    regex matching nothing. -/
def rnAccept : RegexNew := fun _ => .ok (fun _ => false)

/-- A directive line with a malformed numeric value. -/
def badDirectiveLineS : Str := "rarity x".toList

/-- A minimal well-formed `Probe` line. -/
def probeLineEx : Str := "Probe TCP NULL q||".toList

/-- A comment line. -/
def commentLineEx : Str := "# comment".toList

/-- The single entry parsed from `probeLineEx`. -/
def spResEx : ServiceProbes :=
  ⟨probeEx, [], [], none, none, none, none, none, none⟩

/- ===== One's-complement checksum lemmas ===== -/

theorem fold16_le (s : Nat) : fold16 s ≤ 65535 := by
  induction s using fold16.induct with
  | case1 s h => rw [fold16, if_pos h]; omega
  | case2 s h ih => rw [fold16, if_neg h]; exact ih

theorem fold16_le_self (s : Nat) : fold16 s ≤ s := by
  induction s using fold16.induct with
  | case1 s h => rw [fold16, if_pos h]
  | case2 s h ih => rw [fold16, if_neg h]; omega

theorem fold16_mod (s : Nat) : fold16 s % 65535 = s % 65535 := by
  induction s using fold16.induct with
  | case1 s h => rw [fold16, if_pos h]
  | case2 s h ih => rw [fold16, if_neg h]; omega

theorem fold16_pos (s : Nat) (hs : 1 ≤ s) : 1 ≤ fold16 s := by
  induction s using fold16.induct with
  | case1 s h => rw [fold16, if_pos h]; omega
  | case2 s h ih => rw [fold16, if_neg h]; exact ih (by omega)

/-- The heart of checksum correctness: complementing the folded sum and
    adding the complement back into the sum folds to all-ones, so the
    complete message complements to zero. -/
theorem fold16_valid (S : Nat) : fold16 (S + (65535 - fold16 S)) = 65535 := by
  have h1 := fold16_le S
  have h2 := fold16_le_self S
  have h3 := fold16_mod S
  have h4 := fold16_le (S + (65535 - fold16 S))
  have h5 := fold16_mod (S + (65535 - fold16 S))
  have h6 : 1 ≤ S + (65535 - fold16 S) := by omega
  have h7 := fold16_pos _ h6
  omega

/-- C7, claim instance.  The IPv4 header built by `send_icmp_ping_packet`
    has version 4, header length 5, the DontFragment flag (`0b010`), TTL
    64, the random 16-bit identification it was given, a stored checksum
    that pnet's `ipv4::checksum` reproduces on the finished header, and a
    complete-header one's-complement validation of zero. -/
theorem send_icmp_ipv4_header_ok
    (s0 s1 s2 s3 d0 d1 d2 d3 id : Nat)
    (hs0 : s0 < 256) (hs1 : s1 < 256) (hs2 : s2 < 256) (hs3 : s3 < 256)
    (hd0 : d0 < 256) (hd1 : d1 < 256) (hd2 : d2 < 256) (hd3 : d3 < 256)
    (hid : id < 65536) :
    ipv4GetVersion (sendIcmpIpv4Header s0 s1 s2 s3 d0 d1 d2 d3 id) = 4 ∧
    ipv4GetHeaderLength (sendIcmpIpv4Header s0 s1 s2 s3 d0 d1 d2 d3 id) = 5 ∧
    ipv4GetFlags (sendIcmpIpv4Header s0 s1 s2 s3 d0 d1 d2 d3 id) = 2 ∧
    ipv4GetTtl (sendIcmpIpv4Header s0 s1 s2 s3 d0 d1 d2 d3 id) = 64 ∧
    ipv4GetIdentification (sendIcmpIpv4Header s0 s1 s2 s3 d0 d1 d2 d3 id) = id ∧
    pnetIpv4Checksum (sendIcmpIpv4Header s0 s1 s2 s3 d0 d1 d2 d3 id) =
      ipv4GetChecksum (sendIcmpIpv4Header s0 s1 s2 s3 d0 d1 d2 d3 id) ∧
    ipv4Validate (sendIcmpIpv4Header s0 s1 s2 s3 d0 d1 d2 d3 id) = 0 := by
  simp only [sendIcmpIpv4Header]
  set c := pnetIpv4Checksum (icmpIpv4HdrBytes s0 s1 s2 s3 d0 d1 d2 d3 id 0) with hc
  refine ⟨?_, ?_, ?_, ?_, ?_, ?_, ?_⟩
  · simp [icmpIpv4HdrBytes, ipv4GetVersion]
  · simp [icmpIpv4HdrBytes, ipv4GetHeaderLength]
  · simp [icmpIpv4HdrBytes, ipv4GetFlags]
  · simp [icmpIpv4HdrBytes, ipv4GetTtl]
  · simp [icmpIpv4HdrBytes, ipv4GetIdentification]
    omega
  · have hskip :
        sumBeWordsSkip (icmpIpv4HdrBytes s0 s1 s2 s3 d0 d1 d2 d3 id c) 5 =
        sumBeWordsSkip (icmpIpv4HdrBytes s0 s1 s2 s3 d0 d1 d2 d3 id 0) 5 := by
      simp [icmpIpv4HdrBytes, sumBeWordsSkip, sumBeWordsFrom]
    have hget :
        ipv4GetChecksum (icmpIpv4HdrBytes s0 s1 s2 s3 d0 d1 d2 d3 id c) = c := by
      simp [icmpIpv4HdrBytes, ipv4GetChecksum]
      omega
    rw [pnetIpv4Checksum, hskip, hget, hc, pnetIpv4Checksum]
  · have hsum :
        sumBeWords (icmpIpv4HdrBytes s0 s1 s2 s3 d0 d1 d2 d3 id c) =
        sumBeWordsSkip (icmpIpv4HdrBytes s0 s1 s2 s3 d0 d1 d2 d3 id 0) 5 + c := by
      simp [icmpIpv4HdrBytes, sumBeWords, sumBeWordsSkip, sumBeWordsFrom]
      omega
    rw [ipv4Validate, hsum, hc, pnetIpv4Checksum, finalizeChecksum,
      finalizeChecksum, fold16_valid]

/-- C7, witness at a concrete source, destination and identification. -/
theorem send_icmp_ipv4_header_ok_witness :
    ipv4GetVersion (sendIcmpIpv4Header 192 168 72 128 192 168 72 2 4660) = 4 ∧
    ipv4GetHeaderLength (sendIcmpIpv4Header 192 168 72 128 192 168 72 2 4660) = 5 ∧
    ipv4GetFlags (sendIcmpIpv4Header 192 168 72 128 192 168 72 2 4660) = 2 ∧
    ipv4GetTtl (sendIcmpIpv4Header 192 168 72 128 192 168 72 2 4660) = 64 ∧
    ipv4GetIdentification (sendIcmpIpv4Header 192 168 72 128 192 168 72 2 4660) = 4660 ∧
    pnetIpv4Checksum (sendIcmpIpv4Header 192 168 72 128 192 168 72 2 4660) =
      ipv4GetChecksum (sendIcmpIpv4Header 192 168 72 128 192 168 72 2 4660) ∧
    ipv4Validate (sendIcmpIpv4Header 192 168 72 128 192 168 72 2 4660) = 0 :=
  send_icmp_ipv4_header_ok 192 168 72 128 192 168 72 2 4660
    (by decide) (by decide) (by decide) (by decide)
    (by decide) (by decide) (by decide) (by decide) (by decide)

/-- C8, claim instance.  The TCP SYN segment built by `tcp_syn_scan` stores
    a checksum that pnet's `tcp::ipv4_checksum` reproduces on the finished
    segment with the same source and destination IPs, and the full
    pseudo-header one's-complement validation over the finished segment is
    zero. -/
theorem tcp_syn_scan_checksum_ok
    (ps pd sq ak s0 s1 s2 s3 d0 d1 d2 d3 : Nat)
    (hps : ps < 65536) (hpd : pd < 65536)
    (hsq : sq < 2 ^ 32) (hak : ak < 2 ^ 32)
    (hs0 : s0 < 256) (hs1 : s1 < 256) (hs2 : s2 < 256) (hs3 : s3 < 256)
    (hd0 : d0 < 256) (hd1 : d1 < 256) (hd2 : d2 < 256) (hd3 : d3 < 256) :
    pnetTcpIpv4Checksum (tcpSynScanPacket ps pd sq ak s0 s1 s2 s3 d0 d1 d2 d3)
        s0 s1 s2 s3 d0 d1 d2 d3 =
      tcpGetChecksum (tcpSynScanPacket ps pd sq ak s0 s1 s2 s3 d0 d1 d2 d3) ∧
    tcpValidate (tcpSynScanPacket ps pd sq ak s0 s1 s2 s3 d0 d1 d2 d3)
        s0 s1 s2 s3 d0 d1 d2 d3 = 0 := by
  simp only [tcpSynScanPacket]
  set c := pnetTcpIpv4Checksum (tcpSynPacketBytes ps pd sq ak 0)
      s0 s1 s2 s3 d0 d1 d2 d3 with hc
  have hlen : ∀ x : Nat, (tcpSynPacketBytes ps pd sq ak x).length = 20 := by
    intro x
    simp [tcpSynPacketBytes, beBytes]
  have hskip : ∀ x : Nat,
      sumBeWordsSkip (tcpSynPacketBytes ps pd sq ak x) 8 =
      sumBeWordsSkip (tcpSynPacketBytes ps pd sq ak 0) 8 := by
    intro x
    simp [tcpSynPacketBytes, beBytes, sumBeWordsSkip, sumBeWordsFrom]
  constructor
  · have hget : tcpGetChecksum (tcpSynPacketBytes ps pd sq ak c) = c := by
      simp [tcpSynPacketBytes, beBytes, tcpGetChecksum]
      omega
    rw [pnetTcpIpv4Checksum, hskip c, hlen c, hget, hc, pnetTcpIpv4Checksum,
      hlen 0]
  · have hsum :
        sumBeWords (tcpSynPacketBytes ps pd sq ak c) =
        sumBeWordsSkip (tcpSynPacketBytes ps pd sq ak 0) 8 + c := by
      simp [tcpSynPacketBytes, beBytes, sumBeWords, sumBeWordsSkip,
        sumBeWordsFrom]
      omega
    have hsum2 :
        s0 * 256 + s1 + (s2 * 256 + s3) + (d0 * 256 + d1) + (d2 * 256 + d3) +
          6 + 20 + sumBeWords (tcpSynPacketBytes ps pd sq ak c) =
        (s0 * 256 + s1 + (s2 * 256 + s3) + (d0 * 256 + d1) + (d2 * 256 + d3) +
          6 + 20 + sumBeWordsSkip (tcpSynPacketBytes ps pd sq ak 0) 8) + c := by
      omega
    rw [tcpValidate, hlen c, hsum2, hc, pnetTcpIpv4Checksum, hlen 0,
      finalizeChecksum, finalizeChecksum, fold16_valid]

/-- C8, witness at concrete ports, sequence numbers and addresses. -/
theorem tcp_syn_scan_checksum_ok_witness :
    pnetTcpIpv4Checksum (tcpSynScanPacket 47890 443 123456789 987654321
        192 168 5 133 192 168 5 1) 192 168 5 133 192 168 5 1 =
      tcpGetChecksum (tcpSynScanPacket 47890 443 123456789 987654321
        192 168 5 133 192 168 5 1) ∧
    tcpValidate (tcpSynScanPacket 47890 443 123456789 987654321
        192 168 5 133 192 168 5 1) 192 168 5 133 192 168 5 1 = 0 :=
  tcp_syn_scan_checksum_ok 47890 443 123456789 987654321
    192 168 5 133 192 168 5 1
    (by decide) (by decide) (by decide) (by decide)
    (by decide) (by decide) (by decide) (by decide)
    (by decide) (by decide) (by decide) (by decide)

/- ===== Big-endian byte encoding lemmas ===== -/

theorem beBytes_length (n v : Nat) : (beBytes n v).length = n := by
  induction n generalizing v with
  | zero => rfl
  | succ n ih => simp [beBytes, ih]

/-- Reversing an `n`-byte big-endian encoding puts the least significant
    byte first: byte `i` of the reversal is `v / 256 ^ i % 256`. -/
theorem beBytes_reverse_getD (n v i : Nat) (h : i < n) :
    (beBytes n v).reverse.getD i 0 = v / 256 ^ i % 256 := by
  induction n generalizing v i with
  | zero => omega
  | succ n ih =>
    rw [beBytes, List.reverse_append]
    match i with
    | 0 => simp
    | i + 1 =>
      have hstep :
          (List.reverse [v % 256] ++ (beBytes n (v / 256)).reverse).getD (i + 1) 0 =
          (beBytes n (v / 256)).reverse.getD i 0 := by
        simp
      rw [hstep, ih (v / 256) i (by omega), Nat.div_div_eq_div_mul]
      ring_nf

/-- C3, counterexample.  At the concrete draws `ident = 5` and `ident = 600`
    and send time `sec = 1, ms = 0`, the echo request's sequence number is
    the constant 1 — it does not follow the random draw — and the first 8
    payload bytes are not the big-endian encoding of the timestamp (the
    source reverses `to_be_bytes`, producing little-endian bytes). -/
theorem send_icmp_echo_counterexample :
    (sendIcmpEchoBuild 5 1 0).sequence = 1 ∧
    (sendIcmpEchoBuild 5 1 0).sequence ≠ 5 ∧
    (sendIcmpEchoBuild 600 1 0).sequence = 1 ∧
    (sendIcmpEchoBuild 5 1 0).payload.take 8 ≠ beBytes 8 1 := by
  decide

/-- C3, amended claim.  The echo request built by `send_icmp_ping_packet`
    has ICMP type 8 and code 0, carries the random identifier draw, has
    sequence number fixed at 1, and a 16-byte payload whose first 8 bytes
    are the send-time seconds in little-endian order followed by 4
    little-endian bytes of the sub-second milliseconds. -/
theorem send_icmp_echo_build_ok (ident sec ms : Nat)
    (hident : ident < 65536) (hsec : sec < 2 ^ 64) (hms : ms < 2 ^ 32) :
    (sendIcmpEchoBuild ident sec ms).icmp_type = 8 ∧
    (sendIcmpEchoBuild ident sec ms).icmp_code = 0 ∧
    (sendIcmpEchoBuild ident sec ms).identifier = ident ∧
    (sendIcmpEchoBuild ident sec ms).sequence = 1 ∧
    (sendIcmpEchoBuild ident sec ms).payload.length = 16 ∧
    (∀ i, i < 8 →
      (sendIcmpEchoBuild ident sec ms).payload.getD i 0 = sec / 256 ^ i % 256) ∧
    (∀ i, i < 4 →
      (sendIcmpEchoBuild ident sec ms).payload.getD (8 + i) 0 = ms / 256 ^ i % 256) := by
  refine ⟨rfl, rfl, rfl, rfl, ?_, ?_, ?_⟩
  · simp [sendIcmpEchoBuild, beBytes_length]
  · intro i hi
    simp only [sendIcmpEchoBuild]
    rw [List.getD_append _ _ _ _ (by simp [beBytes_length]; omega),
      List.getD_append _ _ _ _ (by simp [beBytes_length]; omega)]
    exact beBytes_reverse_getD 8 sec i hi
  · intro i hi
    simp only [sendIcmpEchoBuild]
    rw [List.getD_append _ _ _ _ (by simp [beBytes_length]; omega),
      List.getD_append_right _ _ _ _ (by simp [beBytes_length]),
      List.length_reverse, beBytes_length]
    have h8 : 8 + i - 8 = i := by omega
    rw [h8]
    exact beBytes_reverse_getD 4 ms i hi

/-- C3, witness at a concrete identifier and send time. -/
theorem send_icmp_echo_build_ok_witness :
    (sendIcmpEchoBuild 4660 1700000000 250).icmp_type = 8 ∧
    (sendIcmpEchoBuild 4660 1700000000 250).icmp_code = 0 ∧
    (sendIcmpEchoBuild 4660 1700000000 250).identifier = 4660 ∧
    (sendIcmpEchoBuild 4660 1700000000 250).sequence = 1 ∧
    (sendIcmpEchoBuild 4660 1700000000 250).payload.length = 16 ∧
    (∀ i, i < 8 →
      (sendIcmpEchoBuild 4660 1700000000 250).payload.getD i 0 =
        1700000000 / 256 ^ i % 256) ∧
    (∀ i, i < 4 →
      (sendIcmpEchoBuild 4660 1700000000 250).payload.getD (8 + i) 0 =
        250 / 256 ^ i % 256) :=
  send_icmp_echo_build_ok 4660 1700000000 250 (by decide) (by norm_num) (by norm_num)

/- ===== Address-range characterisation (C5) ===== -/


/-- C5.  `Ipv4Addr::is_global_x` is false exactly on the three RFC 1918
    private ranges, and `Ipv6Addr::is_global_x` is false exactly on the
    link-local fe80::/10 range. -/
theorem is_global_x_range_charac :
    (∀ o0 o1 o2 o3 : Nat, o0 < 256 → o1 < 256 → o2 < 256 → o3 < 256 →
      (Ipv4A.is_global_x ⟨o0, o1, o2, o3⟩ = false ↔
        inRange10Slash8 (ipv4Value o0 o1 o2 o3) ∨
        inRange172Slash12 (ipv4Value o0 o1 o2 o3) ∨
        inRange192Slash16 (ipv4Value o0 o1 o2 o3))) ∧
    (∀ (o0 o1 : Nat) (rest : List Nat), o0 < 256 → o1 < 256 →
      (Ipv6A.is_global_x ⟨o0, o1, rest⟩ = false ↔
        inRangeFe80Slash10 (o0 * 256 + o1))) := by
  constructor
  · intro o0 o1 o2 o3 h0 h1 h2 h3
    simp only [Ipv4A.is_global_x, ipv4Value, inRange10Slash8,
      inRange172Slash12, inRange192Slash16, Bool.not_eq_false']
    split_ifs with hA hB hC <;> simp_all <;> omega
  · intro o0 o1 rest h0 h1
    simp only [Ipv6A.is_global_x, inRangeFe80Slash10, Bool.not_eq_false']
    split_ifs with hA <;> simp_all <;> omega

/-- C5, witness: 10.1.2.3 is classified non-global and lies in 10.0.0.0/8;
    fe80:1::/see leading octets 254,128 is link-local. -/
theorem is_global_x_range_charac_witness :
    (Ipv4A.is_global_x ⟨10, 1, 2, 3⟩ = false ↔
      inRange10Slash8 (ipv4Value 10 1 2 3) ∨
      inRange172Slash12 (ipv4Value 10 1 2 3) ∨
      inRange192Slash16 (ipv4Value 10 1 2 3)) ∧
    (Ipv6A.is_global_x ⟨254, 128, [0, 0]⟩ = false ↔
      inRangeFe80Slash10 (254 * 256 + 128)) :=
  ⟨is_global_x_range_charac.1 10 1 2 3 (by decide) (by decide) (by decide) (by decide),
   is_global_x_range_charac.2 254 128 [0, 0] (by decide) (by decide)⟩

/- ===== ICMP ping response classification (C6) ===== -/

/-- C6.  `send_icmp_ping_packet` reports `Up` exactly when the matched
    response parses as IPv4 carrying ICMP (protocol 1) with an echo-reply
    type 0 and code 0; every destination-unreachable response (type 3) with
    a code in {1,2,3,9,10,13} yields `Down`; absence of a response yields
    `Down`, not an error. -/
theorem icmp_ping_judge_ok :
    (∀ ret, icmpPingJudge ret = .up ↔
      ret = some (some ⟨1, some (0, 0)⟩)) ∧
    (∀ c, c ∈ [1, 2, 3, 9, 10, 13] →
      icmpPingJudge (some (some ⟨1, some (3, c)⟩)) = .down) ∧
    icmpPingJudge none = .down := by
  refine ⟨?_, ?_, rfl⟩
  · intro ret
    match ret with
    | none => simp [icmpPingJudge]
    | some none => simp [icmpPingJudge]
    | some (some ⟨p, none⟩) => simp [icmpPingJudge]
    | some (some ⟨p, some (t, c)⟩) =>
      simp only [icmpPingJudge, codes_1, codes_2, Option.some.injEq,
        Ipv4RecvView.mk.injEq, Prod.mk.injEq, List.contains_cons,
        List.contains_nil]
      split_ifs with hA hB <;> simp_all
  · intro c hc
    fin_cases hc <;> decide

/-- C6, witness: an echo reply is `Up`; unreachable code 1 and a missing
    response are `Down`. -/
theorem icmp_ping_judge_ok_witness :
    (icmpPingJudge (some (some ⟨1, some (0, 0)⟩)) = .up ↔
      (some (some ⟨1, some (0, 0)⟩) : Option (Option Ipv4RecvView)) =
        some (some ⟨1, some (0, 0)⟩)) ∧
    icmpPingJudge (some (some ⟨1, some (3, 1)⟩)) = .down ∧
    icmpPingJudge none = .down :=
  ⟨icmp_ping_judge_ok.1 (some (some ⟨1, some (0, 0)⟩)),
   icmp_ping_judge_ok.2.1 1 (by decide),
   icmp_ping_judge_ok.2.2⟩

/- ===== Exclude-directive parsing (C1) ===== -/


/-- C1.  On `Exclude T:9100,U:161-162,53` the parser fails with an integer
    parse error instead of returning the three port lists: the UDP range
    branch splits `exclued_split[1]` (the whole token `U:161-162`) instead
    of `ex_split[1]` (`161-162`), so it attempts to parse `U:161` as a
    `u16`. -/
theorem nsp_exclued_bug_eval :
    nsp_exclued_parse [excludeLineS] = .error .intErr := by
  rfl

/- ===== ServiceProbes::check (C2, C10) ===== -/

/-- The accumulation loop of `check` is exactly a filter of the hard match
    rules by their regexes. -/
theorem checkGo_eq_filter (recv : Str) (l : List Match) :
    checkGo recv l = l.filter (fun m => m.re recv) := by
  induction l with
  | nil => rfl
  | cons m rest ih =>
    rw [checkGo, List.filter_cons]
    cases hre : m.re recv <;> simp [hre, ih]

/-- C10.  `ServiceProbes::check` never returns an error, and its result is
    exactly the sublist of the hard `matchs` whose regex matches the
    response, in their original order; `softmatchs` does not occur in the
    result. -/
theorem check_is_filter_of_matchs (sp : ServiceProbes) (recv : Str) :
    sp.check recv = .ok (sp.matchs.filter (fun m => m.re recv)) := by
  rw [ServiceProbes.check, checkGo_eq_filter]


/-- C2, counterexample.  With two hard rules that both hit, `check` does
    not stop at the first hit: the result is not the singleton of the
    first matching rule. -/
theorem check_shortcircuit_counterexample :
    ¬ (ServiceProbes.check
        ⟨probeEx, [mEx1, mEx2], [], none, none, none, none, none, none⟩ [] =
      .ok [mEx1]) := by
  intro h
  simp only [ServiceProbes.check, checkGo, mEx1, mEx2, if_pos] at h
  simp at h

/-- C2, amended claim.  Evaluation consults only the hard `match` rules:
    the result is independent of the `softmatch` rules, and every hard rule
    whose regex hits contributes to the returned list — a hit does not
    short-circuit the walk. -/
theorem check_consults_all_hard_rules_only
    (p : Probe) (ms ss1 ss2 : List Match)
    (po spo : Option (List Nat)) (tw tcw r : Option Nat)
    (fb : Option (List Str)) (s : Str) :
    (ServiceProbes.check ⟨p, ms, ss1, po, spo, tw, tcw, r, fb⟩ s =
      ServiceProbes.check ⟨p, ms, ss2, po, spo, tw, tcw, r, fb⟩ s) ∧
    (∀ m, m ∈ ms → m.re s = true →
      ∃ l, ServiceProbes.check ⟨p, ms, ss1, po, spo, tw, tcw, r, fb⟩ s = .ok l ∧
        m ∈ l) := by
  refine ⟨rfl, ?_⟩
  intro m hm hre
  refine ⟨ms.filter (fun m => m.re s),
    by rw [ServiceProbes.check, checkGo_eq_filter], ?_⟩
  exact List.mem_filter.mpr ⟨hm, by simp [hre]⟩

/-- C2, witness: concrete instance with two always-hitting hard rules and
    differing softmatch lists. -/
theorem check_consults_all_hard_rules_only_witness :
    (ServiceProbes.check
        ⟨probeEx, [mEx1, mEx2], [mEx2], none, none, none, none, none, none⟩ [] =
      ServiceProbes.check
        ⟨probeEx, [mEx1, mEx2], [], none, none, none, none, none, none⟩ []) ∧
    (∃ l, ServiceProbes.check
        ⟨probeEx, [mEx1, mEx2], [mEx2], none, none, none, none, none, none⟩ [] =
        .ok l ∧ mEx1 ∈ l) :=
  ⟨(check_consults_all_hard_rules_only probeEx [mEx1, mEx2] [mEx2] []
      none none none none none none ([] : Str)).1,
   (check_consults_all_hard_rules_only probeEx [mEx1, mEx2] [mEx2] []
      none none none none none none ([] : Str)).2 mEx1 (by simp) rfl⟩

/- ===== Host construction (C4) ===== -/

/-- C4.  `Host::new(addr, _)` succeeds exactly when the address is global
    or the interface resolver finds a source; when the address is
    non-global and no source interface exists, the error is
    `IllegalTarget`. -/
theorem Host_new_ok_iff {α : Type} (fs : Ipv4A → Option α)
    (addr : Ipv4A) (ports : Option (List Nat)) :
    ((∃ h, Host.new fs addr ports = .ok h) ↔
      (addr.is_global_x = true ∨ (fs addr).isSome = true)) ∧
    (addr.is_global_x = false → fs addr = none →
      Host.new fs addr ports = .error (.illegalTarget addr)) := by
  unfold Host.new
  cases hb : addr.is_global_x <;> cases hf : fs addr <;>
    cases ports <;> simp

/-- C4, witness: 10.0.0.1 with a resolver that finds nothing yields
    `IllegalTarget`. -/
theorem Host_new_ok_iff_witness :
    Host.new (fun _ => (none : Option Unit)) ⟨10, 0, 0, 1⟩ none =
      .error (.illegalTarget ⟨10, 0, 0, 1⟩) :=
  (Host_new_ok_iff (fun _ => (none : Option Unit)) ⟨10, 0, 0, 1⟩ none).2
    (by decide) rfl

/- ===== nsp_parser block counting (C9) ===== -/

/-- Inversion of a successful `Except` bind. -/
theorem exBind_ok {α β : Type} (x : Except PErr α) (f : α → Except PErr β) (b : β) :
    (x >>= f = .ok b) ↔ ∃ a, x = .ok a ∧ f a = .ok b := by
  cases x <;> simp [Bind.bind, Except.bind]


theorem nspFlush_ret_length (st : NspState) :
    (nspFlush st).ret.length = st.ret.length + pendingCount st := by
  obtain ⟨ret, pg, a, b, c, d, e, f, g, k⟩ := st
  cases pg <;> simp [nspFlush, pendingCount]

/-- Each loop iteration of `nsp_parser` preserves the running count:
    emitted entries plus the pending probe grow by exactly one per `Probe`
    block opener and by nothing otherwise. -/
theorem nspStep_count (rn : RegexNew) (st : NspState) (l : Str) (st' : NspState)
    (h : nspStep rn st l = .ok st') :
    st'.ret.length + pendingCount st' =
    st.ret.length + pendingCount st + (if isProbeLine l then 1 else 0) := by
  unfold nspStep at h
  by_cases h1 : hasSub l hashS = true
  · rw [if_pos h1] at h
    obtain rfl : st = st' := by simpa using h
    simp [isProbeLine, h1]
  rw [if_neg h1] at h
  simp only [Bool.not_eq_true] at h1
  by_cases h2 : hasSub l excludeS = true
  · rw [if_pos h2] at h
    obtain rfl : st = st' := by simpa using h
    simp [isProbeLine, h2]
  rw [if_neg h2] at h
  simp only [Bool.not_eq_true] at h2
  by_cases h3 : startsW l probeS = true
  · rw [if_pos h3] at h
    have hp : isProbeLine l = true := by
      simp [isProbeLine, h1, h2, h3]
    simp only [exBind_ok] at h
    obtain ⟨ps, -, h⟩ := h
    by_cases hp1 : ps = tcpS
    · rw [if_pos hp1] at h
      simp only [exBind_ok] at h
      obtain ⟨y, -, pn, -, pst, -, h⟩ := h
      simp only [Except.ok.injEq] at h
      subst h
      obtain ⟨ret, pg, m1, m2, p1, p2, t1, t2, r1, f1⟩ := st
      cases pg <;> simp [nspFlush, pendingCount, hp]
    · rw [if_neg hp1] at h
      by_cases hp2 : ps = udpS
      · rw [if_pos hp2] at h
        simp only [exBind_ok] at h
        obtain ⟨y, -, pn, -, pst, -, h⟩ := h
        simp only [Except.ok.injEq] at h
        subst h
        obtain ⟨ret, pg, m1, m2, p1, p2, t1, t2, r1, f1⟩ := st
        cases pg <;> simp [nspFlush, pendingCount, hp]
      · rw [if_neg hp2] at h
        simp only [exBind_ok] at h
        obtain ⟨y, hy, -⟩ := h
        simp at hy
  rw [if_neg h3] at h
  simp only [Bool.not_eq_true] at h3
  have hnp : isProbeLine l = false := by
    simp [isProbeLine, h3]
  rw [hnp]
  simp only [Bool.false_eq_true, if_false]
  by_cases h4 : startsW l matchS = true
  · rw [if_pos h4] at h
    simp only [exBind_ok] at h
    obtain ⟨m, -, h⟩ := h
    simp only [Except.ok.injEq] at h
    subst h
    simp [pendingCount]
  rw [if_neg h4] at h
  by_cases h5 : startsW l softmatchS = true
  · rw [if_pos h5] at h
    simp only [exBind_ok] at h
    obtain ⟨m, -, h⟩ := h
    simp only [Except.ok.injEq] at h
    subst h
    simp [pendingCount]
  rw [if_neg h5] at h
  by_cases h6 : startsW l portsS = true
  · rw [if_pos h6] at h
    simp only [exBind_ok] at h
    obtain ⟨ports, -, h⟩ := h
    simp only [Except.ok.injEq] at h
    subst h
    simp [pendingCount]
  rw [if_neg h6] at h
  by_cases h7 : startsW l sslportsS = true
  · rw [if_pos h7] at h
    simp only [exBind_ok] at h
    obtain ⟨sslports, -, h⟩ := h
    simp only [Except.ok.injEq] at h
    subst h
    simp [pendingCount]
  rw [if_neg h7] at h
  by_cases h8 : startsW l totalwaitmsS = true
  · rw [if_pos h8] at h
    simp only [exBind_ok] at h
    obtain ⟨x, -, v, -, h⟩ := h
    simp only [Except.ok.injEq] at h
    subst h
    simp [pendingCount]
  rw [if_neg h8] at h
  by_cases h9 : startsW l tcpwrappedmsS = true
  · rw [if_pos h9] at h
    simp only [exBind_ok] at h
    obtain ⟨x, -, v, -, h⟩ := h
    simp only [Except.ok.injEq] at h
    subst h
    simp [pendingCount]
  rw [if_neg h9] at h
  by_cases h10 : startsW l rarityS = true
  · rw [if_pos h10] at h
    simp only [exBind_ok] at h
    obtain ⟨x, -, v, -, h⟩ := h
    simp only [Except.ok.injEq] at h
    subst h
    simp [pendingCount]
  rw [if_neg h10] at h
  by_cases h11 : startsW l fallbackS = true
  · rw [if_pos h11] at h
    simp only [Except.ok.injEq] at h
    subst h
    simp [pendingCount]
  rw [if_neg h11] at h
  obtain rfl : st = st' := by simpa using h
  simp

/-- A `#` comment line (any line containing `#`) and a blank line leave the
    parser state untouched. -/
theorem nspStep_noise (rn : RegexNew) (st : NspState) (l : Str)
    (h : hasSub l hashS = true ∨ l = []) :
    nspStep rn st l = .ok st := by
  rcases h with h | rfl
  · simp [nspStep, h]
  · simp [nspStep, hasSub, startsW, hashS, excludeS, probeS, matchS,
      softmatchS, portsS, sslportsS, totalwaitmsS, tcpwrappedmsS, rarityS,
      fallbackS, List.isPrefixOf]

/-- The loop of `nsp_parser` turns the running count into the final entry
    count. -/
theorem nspGo_length (rn : RegexNew) (ls : List Str) (st : NspState)
    (res : List ServiceProbes) (h : nspGo rn ls st = .ok res) :
    res.length = st.ret.length + pendingCount st + probeLineCount ls := by
  induction ls generalizing st with
  | nil =>
    rw [nspGo] at h
    simp only [Except.ok.injEq] at h
    subst h
    simp [probeLineCount, nspFlush_ret_length]
  | cons l rest ih =>
    rw [nspGo] at h
    rw [exBind_ok] at h
    obtain ⟨st1, hstep, hgo⟩ := h
    have hc := nspStep_count rn st l st1 hstep
    have hcount : probeLineCount (l :: rest) =
        (if isProbeLine l then 1 else 0) + probeLineCount rest := by
      simp only [probeLineCount, List.filter_cons]
      cases isProbeLine l <;> simp
      omega
    rw [ih st1 hgo, hcount]
    omega

/-- Removing a comment or blank line anywhere does not change the parse. -/
theorem nspGo_noise_skip (rn : RegexNew) (pre post : List Str) (l : Str)
    (st : NspState) (h : hasSub l hashS = true ∨ l = []) :
    nspGo rn (pre ++ l :: post) st = nspGo rn (pre ++ post) st := by
  induction pre generalizing st with
  | nil =>
    simp only [List.nil_append]
    rw [nspGo]
    rw [nspStep_noise rn st l h]
    simp [Bind.bind, Except.bind]
  | cons p ps ih =>
    simp only [List.cons_append]
    rw [nspGo, nspGo]
    cases hs : nspStep rn st p <;> simp [Bind.bind, Except.bind, ih]


/-- C9, counterexample.  `nsp_parser` does not return `Ok` on every input
    line sequence: a `rarity` directive with a non-numeric value makes it
    return an integer parse error. -/
theorem nsp_parse_counterexample :
    nsp_parse rnAccept [badDirectiveLineS] = .error .intErr := by
  rfl

/-- C9, amended claim.  Whenever `nsp_parser` returns `Ok`, the result has
    exactly one `ServiceProbes` entry per `Probe` block opener — a line
    starting with `Probe` that contains neither `#` nor `Exclude` — and
    removing a `#` comment line or a blank line anywhere leaves the parse
    unchanged. -/
theorem nsp_parse_block_count :
    (∀ (rn : RegexNew) (lines : List Str) (res : List ServiceProbes),
      nsp_parse rn lines = .ok res → res.length = probeLineCount lines) ∧
    (∀ (rn : RegexNew) (pre post : List Str) (l : Str),
      hasSub l hashS = true ∨ l = [] →
      nsp_parse rn (pre ++ l :: post) = nsp_parse rn (pre ++ post)) := by
  constructor
  · intro rn lines res h
    have hlen := nspGo_length rn lines nspInit res h
    simpa [nspInit, pendingCount] using hlen
  · intro rn pre post l h
    exact nspGo_noise_skip rn pre post l nspInit h


/-- C9, witness: one `Probe` line parses to one entry, and a leading
    comment line contributes nothing. -/
theorem nsp_parse_block_count_witness :
    ([spResEx].length = probeLineCount [probeLineEx]) ∧
    nsp_parse rnAccept [commentLineEx, probeLineEx] =
      nsp_parse rnAccept [probeLineEx] :=
  ⟨nsp_parse_block_count.1 rnAccept [probeLineEx] [spResEx] (by rfl),
   nsp_parse_block_count.2 rnAccept [] [probeLineEx] commentLineEx
     (Or.inl (by rfl))⟩

end Pistol
